import Mathlib

/-!
Shallow embedding of `ci-matrix.py`, the CI build-matrix generator of
python-build-standalone, together with proofs about its behaviour.

Python dictionaries are modelled as association lists that preserve the
iteration (insertion) order; Python sets of strings are modelled as lists in
which only membership and non-emptiness are ever observed; raised exceptions
(RuntimeError from find_runner, AttributeError from calling .get on None,
sys.exit(1) in the sharding branch of main) are modelled with the Except
monad.  String primitives (split, strip, int parsing) are re-implemented
structurally on the character list of a string so that all definitions
evaluate by kernel reduction.
-/

/-- Splitting a character list at every separator character.  Mirrors the
behaviour of Python str.split with an explicit separator: the empty string
yields one empty field, and adjacent separators yield empty fields. -/
def splitCharList (p : Char → Bool) : List Char → List (List Char)
  | [] => [[]]
  | c :: cs =>
    let r := splitCharList p cs
    if p c then [] :: r
    else
      match r with
      | [] => [[c]]
      | g :: gs => (c :: g) :: gs

/-- Python str.split(sep) on strings. -/
def pySplit (s : String) (p : Char → Bool) : List String :=
  (splitCharList p s.data).map List.asString

/-- Join character-list fields with a single separator character; used to
model the tail of Python str.split(sep, 1). -/
def joinWithChar (c : Char) : List (List Char) → List Char
  | [] => []
  | [g] => g
  | g :: gs => g ++ c :: joinWithChar c gs

/-- Whitespace recognised by Python str.strip(). -/
def isSpaceChar (c : Char) : Bool :=
  c == ' ' || c == '\t' || c == '\n' || c == '\r'

/-- Python str.strip(). -/
def pyTrim (s : String) : String :=
  List.asString (((s.data.dropWhile isSpaceChar).reverse.dropWhile isSpaceChar).reverse)

/-- Parse a non-empty all-digit character list as a natural number. -/
def digitsToNat (cs : List Char) : Option Nat :=
  if cs.isEmpty then Option.none
  else if cs.all Char.isDigit then
    some (cs.foldl (fun n c => n * 10 + (c.toNat - Char.toNat '0')) 0)
  else Option.none

/-- Numeric parse of one dotted-version component. -/
def pyToNat (s : String) : Option Nat :=
  digitsToNat s.data

/-- Release tuple of a version string.  Modelled from the external packaging
library used by the script (packaging.version.Version, which is not part of
this repository): for the plain dotted numeric versions the configuration
uses (such as 3.9 or 3.13) the Version object compares by its release tuple
of integers. -/
def versionRelease (s : String) : List Nat :=
  (pySplit s (fun c => c == '.')).map (fun part => (pyToNat part).getD 0)

/-- Strict comparison of release tuples, padding the shorter tuple with
zeros, as packaging.version.Version does for release segments. -/
def releaseLt : List Nat → List Nat → Bool
  | [], [] => false
  | [], y :: ys => 0 < y || releaseLt [] ys
  | x :: xs, [] => x == 0 && releaseLt xs []
  | x :: xs, y :: ys => x < y || (x == y && releaseLt xs ys)

/-- Embedding of meets_conditional_version: Version(version) is at least
Version(min_version), i.e. the release tuple is not strictly below. -/
def meets_conditional_version (version : String) (min_version : String) : Bool :=
  !(releaseLt (versionRelease version) (versionRelease min_version))

/-- One runner of the runner registry; the script reads the platform and
arch fields during matrix generation and the free flag when the
free-runners restriction is requested. -/
structure RunnerSpec where
  platform : String
  arch : String
  free : Bool
deriving DecidableEq, Repr

/-- The runner registry: an ordered mapping from runner name to its spec. -/
abbrev Runners := List (String × RunnerSpec)

/-- One conditional build-option block of a target spec (the
minimum-python-version / options pairs of build_options_conditional). -/
structure Conditional where
  minimum_python_version : String
  options : List String
deriving DecidableEq, Repr

/-- One target spec of the target configuration document. -/
structure TargetSpec where
  python_versions : List String
  build_options : List String
  build_options_conditional : List Conditional
  arch : String
  arch_variant : Option String
  libc : Option String
  vcvars : Option String
  run : Option Bool
deriving DecidableEq, Repr

/-- The target configuration: platform name, then target triple, to spec,
both mappings in document order. -/
abbrev Config := List (String × List (String × TargetSpec))

/-- One generated matrix entry.  The python and build_options fields are
the empty string on the base entry and are overwritten on every emitted
variant, matching the dict copy-and-update of the script; dry_run models
the optional dry-run key. -/
structure Entry where
  arch : String
  target_triple : String
  platform : String
  runner : String
  run : String
  arch_variant : Option String
  libc : Option String
  vcvars : Option String
  dry_run : Option String
  python : String
  build_options : String
deriving DecidableEq, Repr

/-- The parsed label filter set: one string set per category, as built by
parse_labels. -/
structure LabelFilters where
  platform : List String
  python : List String
  build : List String
  arch : List String
  libc : List String
  directives : List String
deriving DecidableEq, Repr

/-- The three shapes the label_filters value takes in the script: the
Python None default, the empty dict returned by parse_labels for absent
label input, and a populated dict with all six category keys. -/
inductive PyFilters where
  | pyNone
  | emptyDict
  | dict (f : LabelFilters)
deriving DecidableEq, Repr

/-- The fatal conditions of the script: the RuntimeError of find_runner,
the AttributeError raised by label_filters.get when label_filters is None,
and the sys.exit(1) of the sharding branch of main. -/
inductive GenError where
  | noRunner (platform : String) (arch : String)
  | noneGetAttribute
  | tooManyShards (size : Nat) (shards : Nat) (maxShards : Nat)
deriving DecidableEq, Repr

/-- Embedding of label_filters.get applied to the directives key: on the
Python None default this raises AttributeError, on a dict it returns the
directives set (defaulting to the empty set). -/
def PyFilters.get_directives : PyFilters → Except GenError (List String)
  | .pyNone => Except.error GenError.noneGetAttribute
  | .emptyDict => Except.ok []
  | .dict f => Except.ok f.directives

/-- The directives set a non-None label_filters value yields. -/
def PyFilters.directivesD : PyFilters → List String
  | .dict f => f.directives
  | _ => []

/-- Python truthiness of a label_filters value: None and the empty dict are
falsy, a dict with its six keys is truthy. -/
def PyFilters.truthy : PyFilters → Bool
  | .dict _ => true
  | _ => false

/-- Python truthiness of an optional string (the platform_filter argument):
None and the empty string are falsy. -/
def pyTruthyStr : Option String → Bool
  | some s => s != ""
  | _ => false

/-- Python truthiness of entry.get on an optional string field: a missing
key and the empty string are both falsy. -/
def pyTruthyOptStr : Option String → Bool
  | some s => s != ""
  | _ => false

/-- The CI_EXTRA_SKIP_LABELS constant. -/
def CI_EXTRA_SKIP_LABELS : List String := ["documentation"]

/-- The CI_MATRIX_SIZE_LIMIT constant. -/
def CI_MATRIX_SIZE_LIMIT : Nat := 256

/-- The label filter set all of whose category sets are empty, as built at
the start of parse_labels. -/
def emptyLabelFilters : LabelFilters :=
  { platform := [], python := [], build := [], arch := [], libc := [], directives := [] }

/-- Record one value into one category set of the filter result, mirroring
the dict membership test and set add of parse_labels; unknown categories
leave the result unchanged. -/
def addToCategory (result : LabelFilters) (category : String) (value : String) : LabelFilters :=
  if category == "platform" then { result with platform := result.platform.insert value }
  else if category == "python" then { result with python := result.python.insert value }
  else if category == "build" then { result with build := result.build.insert value }
  else if category == "arch" then { result with arch := result.arch.insert value }
  else if category == "libc" then { result with libc := result.libc.insert value }
  else if category == "directives" then { result with directives := result.directives.insert value }
  else result

/-- Process one comma-separated token of the label string, as the loop body
of parse_labels does: strip it, translate an extra-skip label to the skip
directive, drop empty or colon-free tokens, split once on the first colon,
alias the ci category to directives, and record the value. -/
def apply_label (result : LabelFilters) (label : String) : LabelFilters :=
  let label := pyTrim label
  if CI_EXTRA_SKIP_LABELS.contains label then
    { result with directives := result.directives.insert "skip" }
  else if label == "" || !(label.data.contains ':') then result
  else
    let parts := splitCharList (fun c => c == ':') label.data
    let category := List.asString (parts.headD [])
    let value := List.asString (joinWithChar ':' parts.tail)
    let category := if category == "ci" then "directives" else category
    addToCategory result category value

/-- Embedding of parse_labels: absent or empty label input yields the empty
dict, otherwise the tokens of the comma-split input are folded into a fresh
six-category filter set. -/
def parse_labels (labels : Option String) : PyFilters :=
  match labels with
  | Option.none => PyFilters.emptyDict
  | some s =>
    if s == "" then PyFilters.emptyDict
    else PyFilters.dict ((pySplit s (fun c => c == ',')).foldl apply_label emptyLabelFilters)

/-- Embedding of should_include_entry: the chain of early-return checks of
the script, one per category. -/
def should_include_entry (entry : Entry) (filters : LabelFilters) : Bool :=
  if !filters.directives.isEmpty && filters.directives.contains "skip" then false
  else if !filters.platform.isEmpty && !(filters.platform.contains entry.platform) then false
  else if !filters.python.isEmpty && !(filters.python.contains entry.python) then false
  else if !filters.arch.isEmpty && !(filters.arch.contains entry.arch) then false
  else if !filters.libc.isEmpty && pyTruthyOptStr entry.libc
      && !(filters.libc.contains (entry.libc.getD "")) then false
  else if !filters.build.isEmpty
      && !(filters.build.all (fun f => (pySplit entry.build_options (fun c => c == '+')).contains f)) then false
  else true

/-- First-binding lookup in an ordered mapping, modelling Python dict
indexing. -/
def dictGet {α : Type} (d : List (String × α)) (k : String) : Option α :=
  (d.find? (fun p => p.1 == k)).map (fun p => p.2)

/-- Embedding of find_runner: filter the registry to the runners whose
platform matches, prefer the first of those whose arch also matches, fall
back to the first platform match, and raise RuntimeError when there is
none. -/
def find_runner (runners : Runners) (platform : String) (arch : String) :
    Except GenError String :=
  let match_platform := runners.filter (fun r => r.2.platform == platform)
  let match_arch := match_platform.filter (fun r => r.2.arch == arch)
  match match_arch with
  | r :: _ => Except.ok r.1
  | [] =>
    match match_platform with
    | r :: _ => Except.ok r.1
    | [] => Except.error (GenError.noRunner platform arch)

/-- The base entry of add_matrix_entries_for_config: the shared fields of
every variant of one (platform, target triple) pair, including the run
field (explicit run value stringified and lowercased, else whether the
resolved runner's arch equals the target arch) and the dry-run directive. -/
def make_base_entry (target_triple : String) (platform : String) (runner : String)
    (config : TargetSpec) (runners : Runners) (directives : List String) : Entry :=
  { arch := config.arch
    target_triple := target_triple
    platform := platform
    runner := runner
    run :=
      match config.run with
      | some b => if b then "true" else "false"
      | Option.none =>
        if ((dictGet runners runner).map RunnerSpec.arch) == some config.arch
        then "true" else "false"
    arch_variant := config.arch_variant
    libc := config.libc
    vcvars := config.vcvars
    dry_run := if directives.contains "dry-run" then some "true" else Option.none
    python := ""
    build_options := "" }

/-- The regular nested loop of add_matrix_entries_for_config: python
version outer, build option inner, each emitting a copy of the base entry
with python and build_options set. -/
def regular_entries (base : Entry) (python_versions : List String)
    (build_options : List String) : List Entry :=
  python_versions.flatMap (fun python_version =>
    build_options.map (fun build_option =>
      { base with python := python_version, build_options := build_option }))

/-- The loop body for one conditional block: python versions that do not
meet the block's minimum version are skipped, the rest emit one entry per
option of the block. -/
def conditional_entries_for (base : Entry) (python_versions : List String)
    (conditional : Conditional) : List Entry :=
  python_versions.flatMap (fun python_version =>
    if meets_conditional_version python_version conditional.minimum_python_version then
      conditional.options.map (fun build_option =>
        { base with python := python_version, build_options := build_option })
    else [])

/-- The conditional loop of add_matrix_entries_for_config: the blocks in
declared order. -/
def conditional_entries (base : Entry) (python_versions : List String)
    (conditionals : List Conditional) : List Entry :=
  conditionals.flatMap (conditional_entries_for base python_versions)

/-- Embedding of add_matrix_entries_for_config: resolve the runner, build
the base entry, and append the regular entries followed by the conditional
entries to the accumulated matrix. -/
def add_matrix_entries_for_config (matrix_entries : List Entry) (target_triple : String)
    (config : TargetSpec) (platform : String) (runners : Runners)
    (directives : List String) : Except GenError (List Entry) := do
  let runner ← find_runner runners platform config.arch
  let base := make_base_entry target_triple platform runner config runners directives
  return matrix_entries
    ++ regular_entries base config.python_versions config.build_options
    ++ conditional_entries base config.python_versions config.build_options_conditional

/-- The entries one (platform, target triple) pair contributes when its
runner resolves; the runner-error branch is never reached on a successful
expansion. -/
def entries_for_target (runners : Runners) (platform : String) (target_triple : String)
    (config : TargetSpec) (directives : List String) : List Entry :=
  match find_runner runners platform config.arch with
  | Except.ok runner =>
    let base := make_base_entry target_triple platform runner config runners directives
    regular_entries base config.python_versions config.build_options
      ++ conditional_entries base config.python_versions config.build_options_conditional
  | Except.error _ => []

/-- The platform-restriction test of the outer loop of
generate_matrix_entries: a truthy platform_filter skips every other
platform. -/
def platform_skipped (platform_filter : Option String) (platform : String) : Bool :=
  pyTruthyStr platform_filter && (some platform != platform_filter)

/-- The inner loop of generate_matrix_entries over the target triples of
one platform; the directives set is looked up on label_filters before each
call, exactly as the call-site argument evaluation of the script does. -/
def generate_targets (matrix_entries : List Entry) (platform : String)
    (targets : List (String × TargetSpec)) (runners : Runners)
    (label_filters : PyFilters) : Except GenError (List Entry) :=
  match targets with
  | [] => Except.ok matrix_entries
  | (target_triple, target_config) :: rest => do
    let directives ← label_filters.get_directives
    let acc ← add_matrix_entries_for_config matrix_entries target_triple target_config
      platform runners directives
    generate_targets acc platform rest runners label_filters

/-- The outer loop of generate_matrix_entries over the platforms of the
configuration. -/
def generate_platforms (matrix_entries : List Entry) (config : Config)
    (runners : Runners) (platform_filter : Option String)
    (label_filters : PyFilters) : Except GenError (List Entry) :=
  match config with
  | [] => Except.ok matrix_entries
  | (platform, platform_config) :: rest =>
    if platform_skipped platform_filter platform then
      generate_platforms matrix_entries rest runners platform_filter label_filters
    else do
      let acc ← generate_targets matrix_entries platform platform_config runners label_filters
      generate_platforms acc rest runners platform_filter label_filters

/-- Embedding of generate_matrix_entries: expand every platform and target,
then apply the label filters when label_filters is truthy. -/
def generate_matrix_entries (config : Config) (runners : Runners)
    (platform_filter : Option String) (label_filters : PyFilters) :
    Except GenError (List Entry) := do
  let matrix_entries ← generate_platforms [] config runners platform_filter label_filters
  match label_filters with
  | PyFilters.dict f =>
    return matrix_entries.filter (fun entry => should_include_entry entry f)
  | _ => return matrix_entries

/-- The free-runner restriction of main: keep only the registry entries
whose free flag is set. -/
def filter_free_runners (runners : Runners) : Runners :=
  runners.filter (fun r => r.2.free)

/-- The sharding branch of main: the required shard count is the entry
count divided by the matrix size limit, plus one; exceeding max_shards is
the fatal sys.exit(1), and otherwise each shard index from 0 to
max_shards - 1 is keyed by its decimal string and holds the corresponding
256-entry slice (the include list of the emitted JSON object). -/
def shard_matrix (entries : List Entry) (max_shards : Nat) :
    Except GenError (List (String × List Entry)) :=
  let shards := entries.length / CI_MATRIX_SIZE_LIMIT + 1
  if shards > max_shards then
    Except.error (GenError.tooManyShards entries.length shards max_shards)
  else
    Except.ok ((List.range max_shards).map (fun shard =>
      (toString shard,
        (entries.drop (shard * CI_MATRIX_SIZE_LIMIT)).take CI_MATRIX_SIZE_LIMIT)))

/-- A small runner registry used to exercise the definitions: one linux
arm64 runner listed first and one linux x86_64 runner listed second. -/
def sampleRunners : Runners :=
  [("runner-arm", { platform := "linux", arch := "aarch64", free := false }),
   ("runner-x64", { platform := "linux", arch := "x86_64", free := true })]

/-- A small target spec with one unconditional build option and one
conditional block gated on Python 3.10. -/
def sampleSpec : TargetSpec :=
  { python_versions := ["3.9", "3.13"]
    build_options := ["debug"]
    build_options_conditional :=
      [{ minimum_python_version := "3.10", options := ["freethreaded"] }]
    arch := "x86_64"
    arch_variant := Option.none
    libc := some "glibc"
    vcvars := Option.none
    run := Option.none }

/-- A one-platform, one-target configuration built from the sample spec. -/
def sampleConfig : Config := [("linux", [("x86_64-unknown-linux-gnu", sampleSpec)])]

/-- A configuration whose only platform has no runner in the sample
registry. -/
def windowsConfig : Config := [("windows", [("x86_64-pc-windows-msvc", sampleSpec)])]

/-- The entries the sample target contributes, read back from the
expansion itself. -/
def sampleEntries : List Entry :=
  (add_matrix_entries_for_config [] "x86_64-unknown-linux-gnu" sampleSpec "linux"
    sampleRunners []).toOption.getD []

/-- The unfiltered expansion of the sample configuration. -/
def sampleRaw : List Entry :=
  (generate_platforms [] sampleConfig sampleRunners Option.none
    (PyFilters.dict emptyLabelFilters)).toOption.getD []

/-- A label filter set holding only the skip directive. -/
def skipFilters : LabelFilters :=
  { emptyLabelFilters with directives := ["skip"] }

/-- A label filter set holding only a build-category constraint. -/
def buildFilters : LabelFilters :=
  { emptyLabelFilters with build := ["debug"] }

/-- A label filter set holding only a libc-category constraint. -/
def libcFilters : LabelFilters :=
  { emptyLabelFilters with libc := ["glibc"] }

/-- A concrete entry whose build options carry two plus-separated tokens. -/
def sampleEntry : Entry :=
  { arch := "x86_64"
    target_triple := "x86_64-unknown-linux-gnu"
    platform := "linux"
    runner := "runner-x64"
    run := "true"
    arch_variant := Option.none
    libc := some "glibc"
    vcvars := Option.none
    dry_run := Option.none
    python := "3.13"
    build_options := "debug+pgo" }

/-- A concrete entry whose libc field is present but holds the empty
string, the falsy value Python's truthiness test treats like an absent
field. -/
def emptyLibcEntry : Entry :=
  { sampleEntry with libc := some "" }

/-- The filtered expansion of the sample configuration under the empty-dict
label filters. -/
def sampleGenerated : List Entry :=
  (generate_matrix_entries sampleConfig sampleRunners Option.none
    PyFilters.emptyDict).toOption.getD []

/-! ### Helper lemmas -/

theorem head?_filter {α : Type} (p : α → Bool) (l : List α) :
    (l.filter p).head? = l.find? p := by
  induction l with
  | nil => rfl
  | cons a t ih => by_cases h : p a <;> simp [List.filter_cons, List.find?, h, ih]

theorem get_directives_of_ne_pyNone (lf : PyFilters) (h : lf ≠ PyFilters.pyNone) :
    lf.get_directives = Except.ok lf.directivesD := by
  cases lf with
  | pyNone => exact absurd rfl h
  | emptyDict => rfl
  | dict f => rfl

theorem find_runner_unfold (runners : Runners) (platform arch : String) :
    find_runner runners platform arch =
      match (runners.filter (fun r => r.2.platform == platform)).filter
          (fun r => r.2.arch == arch) with
      | r :: _ => Except.ok r.1
      | [] =>
        match runners.filter (fun r => r.2.platform == platform) with
        | r :: _ => Except.ok r.1
        | [] => Except.error (GenError.noRunner platform arch) := rfl

theorem filter_platform_arch (runners : Runners) (platform arch : String) :
    (runners.filter (fun r => r.2.platform == platform)).filter (fun r => r.2.arch == arch)
      = runners.filter (fun r => r.2.platform == platform && r.2.arch == arch) := by
  rw [List.filter_filter]
  exact List.filter_congr (fun a _ => Bool.and_comm _ _)

theorem find_runner_ok_arch {runners : Runners} {platform arch : String}
    {p : String × RunnerSpec}
    (h : runners.find? (fun q => q.2.platform == platform && q.2.arch == arch) = some p) :
    find_runner runners platform arch = Except.ok p.1 := by
  rw [find_runner_unfold, filter_platform_arch]
  have hh : (runners.filter
      (fun q => q.2.platform == platform && q.2.arch == arch)).head? = some p := by
    rw [head?_filter]; exact h
  cases hc : runners.filter (fun q => q.2.platform == platform && q.2.arch == arch) with
  | nil => rw [hc] at hh; cases hh
  | cons r t =>
    rw [hc] at hh
    have hrp : r = p := by simpa using hh
    simp [hrp]

theorem find_runner_ok_fallback {runners : Runners} {platform arch : String}
    {p : String × RunnerSpec}
    (hnone : runners.find? (fun q => q.2.platform == platform && q.2.arch == arch)
      = Option.none)
    (h : runners.find? (fun q => q.2.platform == platform) = some p) :
    find_runner runners platform arch = Except.ok p.1 := by
  rw [find_runner_unfold, filter_platform_arch]
  have hnil : runners.filter (fun q => q.2.platform == platform && q.2.arch == arch) = [] := by
    have := head?_filter (fun q => q.2.platform == platform && q.2.arch == arch) runners
    rw [hnone] at this
    exact List.head?_eq_none_iff.mp this
  rw [hnil]
  have hh : (runners.filter (fun q => q.2.platform == platform)).head? = some p := by
    rw [head?_filter]; exact h
  cases hc : runners.filter (fun q => q.2.platform == platform) with
  | nil => rw [hc] at hh; cases hh
  | cons r t =>
    rw [hc] at hh
    have hrp : r = p := by simpa using hh
    simp [hrp]

theorem find_runner_error_of_no_platform {runners : Runners} {platform arch : String}
    (h : runners.filter (fun q => q.2.platform == platform) = []) :
    find_runner runners platform arch = Except.error (GenError.noRunner platform arch) := by
  rw [find_runner_unfold, h]
  rfl

theorem find_runner_ok_of_platform {runners : Runners} {platform arch : String}
    {r : String × RunnerSpec} {t : List (String × RunnerSpec)}
    (h : runners.filter (fun q => q.2.platform == platform) = r :: t) :
    ∃ name, find_runner runners platform arch = Except.ok name := by
  rw [find_runner_unfold, h]
  cases hc : (r :: t).filter (fun q => q.2.arch == arch) with
  | nil => exact ⟨r.1, rfl⟩
  | cons x xs => exact ⟨x.1, rfl⟩

theorem find_runner_error_iff (runners : Runners) (platform arch : String) :
    find_runner runners platform arch = Except.error (GenError.noRunner platform arch) ↔
      ∀ q ∈ runners, ¬(q.2.platform = platform) := by
  constructor
  · intro h q hq hp
    cases hc : runners.filter (fun q => q.2.platform == platform) with
    | cons r t =>
      obtain ⟨name, hok⟩ := @find_runner_ok_of_platform runners platform arch r t hc
      rw [h] at hok
      cases hok
    | nil =>
      have : q ∈ runners.filter (fun q => q.2.platform == platform) :=
        List.mem_filter.mpr ⟨hq, by simp [hp]⟩
      rw [hc] at this
      cases this
  · intro h
    apply find_runner_error_of_no_platform
    rw [List.filter_eq_nil_iff]
    intro q hq
    simp [h q hq]

theorem find_runner_error_shape {runners : Runners} {platform arch : String} {e : GenError}
    (h : find_runner runners platform arch = Except.error e) :
    e = GenError.noRunner platform arch := by
  cases hc : runners.filter (fun q => q.2.platform == platform) with
  | cons r t =>
    obtain ⟨name, hok⟩ := @find_runner_ok_of_platform runners platform arch r t hc
    rw [h] at hok
    cases hok
  | nil =>
    have := @find_runner_error_of_no_platform runners platform arch hc
    rw [h] at this
    injection this with this

theorem add_matrix_ok {runners : Runners} {platform : String} {config : TargetSpec}
    {runner : String}
    (h : find_runner runners platform config.arch = Except.ok runner)
    (matrix_entries : List Entry) (target_triple : String) (directives : List String) :
    add_matrix_entries_for_config matrix_entries target_triple config platform runners
        directives =
      Except.ok (matrix_entries
        ++ regular_entries (make_base_entry target_triple platform runner config runners
            directives) config.python_versions config.build_options
        ++ conditional_entries (make_base_entry target_triple platform runner config runners
            directives) config.python_versions config.build_options_conditional) := by
  unfold add_matrix_entries_for_config
  rw [h]
  rfl

theorem add_matrix_err {runners : Runners} {platform : String} {config : TargetSpec}
    {e : GenError}
    (h : find_runner runners platform config.arch = Except.error e)
    (matrix_entries : List Entry) (target_triple : String) (directives : List String) :
    add_matrix_entries_for_config matrix_entries target_triple config platform runners
      directives = Except.error e := by
  unfold add_matrix_entries_for_config
  rw [h]
  rfl

theorem entries_for_target_of_ok {runners : Runners} {platform : String} {config : TargetSpec}
    {runner : String}
    (h : find_runner runners platform config.arch = Except.ok runner)
    (target_triple : String) (directives : List String) :
    entries_for_target runners platform target_triple config directives =
      regular_entries (make_base_entry target_triple platform runner config runners directives)
          config.python_versions config.build_options
        ++ conditional_entries (make_base_entry target_triple platform runner config runners
            directives) config.python_versions config.build_options_conditional := by
  unfold entries_for_target
  rw [h]

theorem add_matrix_ok_eft {runners : Runners} {platform : String} {config : TargetSpec}
    {runner : String}
    (h : find_runner runners platform config.arch = Except.ok runner)
    (matrix_entries : List Entry) (target_triple : String) (directives : List String) :
    add_matrix_entries_for_config matrix_entries target_triple config platform runners
        directives =
      Except.ok (matrix_entries ++ entries_for_target runners platform target_triple config
        directives) := by
  rw [add_matrix_ok h, entries_for_target_of_ok h, List.append_assoc]

theorem length_regular_entries (base : Entry) (pvs bos : List String) :
    (regular_entries base pvs bos).length = pvs.length * bos.length := by
  unfold regular_entries
  induction pvs with
  | nil => simp
  | cons v t ih =>
    simp only [List.flatMap_cons, List.length_append, List.length_map, ih, List.length_cons]
    ring

theorem length_conditional_entries_for (base : Entry) (pvs : List String) (c : Conditional) :
    (conditional_entries_for base pvs c).length =
      (pvs.filter (fun v => meets_conditional_version v c.minimum_python_version)).length
        * c.options.length := by
  unfold conditional_entries_for
  induction pvs with
  | nil => simp
  | cons v t ih =>
    by_cases h : meets_conditional_version v c.minimum_python_version <;>
      simp [List.flatMap_cons, List.filter_cons, h, ih, List.length_map, Nat.succ_mul] <;>
      ring

theorem length_conditional_entries (base : Entry) (pvs : List String)
    (cs : List Conditional) :
    (conditional_entries base pvs cs).length =
      (cs.map (fun c =>
        (pvs.filter (fun v => meets_conditional_version v c.minimum_python_version)).length
          * c.options.length)).sum := by
  unfold conditional_entries
  induction cs with
  | nil => simp
  | cons c t ih =>
    simp [List.flatMap_cons, length_conditional_entries_for, ih]

theorem mem_conditional_entries_for {e base pvs c}
    (h : e ∈ conditional_entries_for base pvs c) :
    meets_conditional_version e.python c.minimum_python_version = true := by
  unfold conditional_entries_for at h
  rw [List.mem_flatMap] at h
  obtain ⟨v, hv, he⟩ := h
  by_cases hm : meets_conditional_version v c.minimum_python_version
  · rw [if_pos hm] at he
    rw [List.mem_map] at he
    obtain ⟨o, _, rfl⟩ := he
    simpa using hm
  · rw [if_neg hm] at he
    cases he

/-! ### Claims -/

/-- C1: for every (platform, target triple) pair the expander processes
successfully, the number of entries appended equals the number of python
versions times the number of build options, plus, for each conditional
block, the number of python versions meeting the block's minimum version
(release-version comparison) times the number of options of the block; and
no entry emitted for a conditional block carries a python version strictly
below the block's minimum version. -/
theorem add_matrix_entry_count (matrix_entries : List Entry) (target_triple : String)
    (config : TargetSpec) (platform : String) (runners : Runners)
    (directives : List String) (res : List Entry)
    (h : add_matrix_entries_for_config matrix_entries target_triple config platform runners
      directives = Except.ok res) :
    res.length = matrix_entries.length
        + config.python_versions.length * config.build_options.length
        + ((config.build_options_conditional.map (fun c =>
            (config.python_versions.filter (fun v =>
              meets_conditional_version v c.minimum_python_version)).length
              * c.options.length)).sum)
    ∧ ∀ (base : Entry) (pvs : List String) (c : Conditional),
        ∀ e ∈ conditional_entries_for base pvs c,
          meets_conditional_version e.python c.minimum_python_version = true := by
  constructor
  · cases hf : find_runner runners platform config.arch with
    | error e =>
      rw [add_matrix_err hf] at h
      cases h
    | ok runner =>
      rw [add_matrix_ok hf] at h
      injection h with h
      subst h
      simp [List.length_append, length_regular_entries, length_conditional_entries,
        Nat.add_assoc]
  · intro base pvs c e he
    exact mem_conditional_entries_for he

/-- Witness for C1 at the sample target: the sample expansion appends the
two unconditional variants plus the one qualifying conditional variant. -/
theorem add_matrix_entry_count_witness :
    sampleEntries.length = ([] : List Entry).length
        + sampleSpec.python_versions.length * sampleSpec.build_options.length
        + ((sampleSpec.build_options_conditional.map (fun c =>
            (sampleSpec.python_versions.filter (fun v =>
              meets_conditional_version v c.minimum_python_version)).length
              * c.options.length)).sum) :=
  (add_matrix_entry_count [] "x86_64-unknown-linux-gnu" sampleSpec "linux" sampleRunners []
    sampleEntries (by rfl)).1

/-- C2: runner selection returns the first registry entry matching both the
target platform and arch when one exists, otherwise the first entry
matching the platform, and fails with the no-runner error exactly when no
registry entry has the target platform. -/
theorem find_runner_selection (runners : Runners) (platform arch : String) :
    (∀ p, runners.find? (fun q => q.2.platform == platform && q.2.arch == arch) = some p →
      find_runner runners platform arch = Except.ok p.1)
    ∧ (runners.find? (fun q => q.2.platform == platform && q.2.arch == arch) = Option.none →
      ∀ p, runners.find? (fun q => q.2.platform == platform) = some p →
        find_runner runners platform arch = Except.ok p.1)
    ∧ (find_runner runners platform arch = Except.error (GenError.noRunner platform arch) ↔
      ∀ q ∈ runners, ¬(q.2.platform = platform)) :=
  ⟨fun _ h => find_runner_ok_arch h,
   fun hnone _ h => find_runner_ok_fallback hnone h,
   find_runner_error_iff runners platform arch⟩

/-- Witness for C2 at the sample registry: the x86_64 runner is listed
second but is selected over the first-listed arm runner because its arch
matches. -/
theorem find_runner_selection_witness :
    find_runner sampleRunners "linux" "x86_64" = Except.ok "runner-x64" :=
  (find_runner_selection sampleRunners "linux" "x86_64").1
    ("runner-x64", { platform := "linux", arch := "x86_64", free := true }) (by decide)

/-- C3: with sharding requested, the required shard count is the entry
count divided by 256 plus one; the run fails fatally exactly when that
count exceeds max_shards (in particular at exactly 256 entries with one
allowed shard), and otherwise the output has exactly max_shards keys, the
decimal strings of 0 through max_shards - 1, the i-th holding the slice of
the entries from position i * 256 of length at most 256. -/
theorem shard_matrix_spec (entries : List Entry) (max_shards : Nat)
    (h : 0 < max_shards) :
    ((∃ e, shard_matrix entries max_shards = Except.error e) ↔
      entries.length / CI_MATRIX_SIZE_LIMIT + 1 > max_shards)
    ∧ (entries.length = 256 → max_shards = 1 →
      ∃ e, shard_matrix entries max_shards = Except.error e)
    ∧ (∀ res, shard_matrix entries max_shards = Except.ok res →
        res.length = max_shards ∧
        ∀ i, (hi : i < res.length) →
          res.get ⟨i, hi⟩ =
            (toString i,
              (entries.drop (i * CI_MATRIX_SIZE_LIMIT)).take CI_MATRIX_SIZE_LIMIT)) := by
  by_cases hc : entries.length / CI_MATRIX_SIZE_LIMIT + 1 > max_shards
  · refine ⟨⟨fun _ => hc, fun _ => ?_⟩, fun _ _ => ?_, fun res hres => ?_⟩
    · exact ⟨GenError.tooManyShards entries.length
        (entries.length / CI_MATRIX_SIZE_LIMIT + 1) max_shards, by simp [shard_matrix, hc]⟩
    · exact ⟨GenError.tooManyShards entries.length
        (entries.length / CI_MATRIX_SIZE_LIMIT + 1) max_shards, by simp [shard_matrix, hc]⟩
    · simp [shard_matrix, hc] at hres
  · constructor
    · constructor
      · intro ⟨e, he⟩
        simp [shard_matrix, hc] at he
      · intro hgt
        exact absurd hgt hc
    constructor
    · intro h256 h1
      exfalso
      apply hc
      rw [h256, h1]
      norm_num [CI_MATRIX_SIZE_LIMIT]
    · intro res hres
      simp only [shard_matrix, if_neg hc] at hres
      injection hres with hres
      subst hres
      constructor
      · simp
      · intro i hi
        simp [List.get_eq_getElem]

/-- Witness for C3: one shard is allowed and the empty entry list yields
exactly one shard keyed by the string 0. -/
theorem shard_matrix_spec_witness :
    0 < 1 ∧ ∃ res, shard_matrix ([] : List Entry) 1 = Except.ok res ∧ res.length = 1 := by
  refine ⟨Nat.one_pos, [("0", ([] : List Entry))], rfl, ?_⟩
  exact ((shard_matrix_spec [] 1 Nat.one_pos).2.2 [("0", [])] rfl).1

/-! ### Unfolding equations and invariants of the expansion loops -/

theorem generate_targets_nil (acc : List Entry) (platform : String) (rs : Runners)
    (lf : PyFilters) : generate_targets acc platform [] rs lf = Except.ok acc := rfl

theorem generate_targets_cons (acc : List Entry) (platform : String) (tt : String)
    (tc : TargetSpec) (rest : List (String × TargetSpec)) (rs : Runners) (lf : PyFilters) :
    generate_targets acc platform ((tt, tc) :: rest) rs lf =
      lf.get_directives.bind (fun directives =>
        (add_matrix_entries_for_config acc tt tc platform rs directives).bind
          (fun acc2 => generate_targets acc2 platform rest rs lf)) := rfl

theorem generate_platforms_nil (acc : List Entry) (rs : Runners) (pf : Option String)
    (lf : PyFilters) : generate_platforms acc [] rs pf lf = Except.ok acc := rfl

theorem generate_platforms_cons (acc : List Entry) (p : String)
    (pcfg : List (String × TargetSpec)) (rest : Config) (rs : Runners)
    (pf : Option String) (lf : PyFilters) :
    generate_platforms acc ((p, pcfg) :: rest) rs pf lf =
      if platform_skipped pf p then generate_platforms acc rest rs pf lf
      else (generate_targets acc p pcfg rs lf).bind
        (fun acc2 => generate_platforms acc2 rest rs pf lf) := rfl

theorem generate_matrix_entries_eq (config : Config) (rs : Runners) (pf : Option String)
    (lf : PyFilters) :
    generate_matrix_entries config rs pf lf =
      (generate_platforms [] config rs pf lf).bind (fun matrix_entries =>
        match lf with
        | PyFilters.dict f =>
          Except.ok (matrix_entries.filter (fun e => should_include_entry e f))
        | _ => Except.ok matrix_entries) := rfl

theorem generate_targets_inv {platform : String} {rs : Runners} {lf : PyFilters} :
    ∀ {targets : List (String × TargetSpec)} {acc res : List Entry},
    generate_targets acc platform targets rs lf = Except.ok res →
    res = acc ++ targets.flatMap
        (fun t => entries_for_target rs platform t.1 t.2 lf.directivesD)
    ∧ ∀ t ∈ targets, ∃ r, find_runner rs platform t.2.arch = Except.ok r := by
  intro targets
  induction targets with
  | nil =>
    intro acc res h
    rw [generate_targets_nil] at h
    injection h with h
    subst h
    simp
  | cons t rest ih =>
    obtain ⟨tt, tc⟩ := t
    intro acc res h
    rw [generate_targets_cons] at h
    cases hd : lf.get_directives with
    | error e => rw [hd] at h; cases h
    | ok directives =>
      rw [hd] at h
      have hlf : lf ≠ PyFilters.pyNone := by
        intro hx; subst hx; cases hd
      have hdd : directives = lf.directivesD := by
        rw [get_directives_of_ne_pyNone lf hlf] at hd
        injection hd with hd
        exact hd.symm
      subst hdd
      simp only [Except.bind] at h
      cases ha : add_matrix_entries_for_config acc tt tc platform rs lf.directivesD with
      | error e => rw [ha] at h; cases h
      | ok acc2 =>
        rw [ha] at h
        cases hf : find_runner rs platform tc.arch with
        | error e => rw [add_matrix_err hf] at ha; cases ha
        | ok r =>
          rw [add_matrix_ok_eft hf] at ha
          injection ha with ha
          subst ha
          obtain ⟨hres, hall⟩ := ih h
          constructor
          · rw [hres]
            simp [List.flatMap_cons, List.append_assoc]
          · intro t ht
            rcases List.mem_cons.mp ht with rfl | htr
            · exact ⟨r, hf⟩
            · exact hall t htr

theorem generate_targets_ok {platform : String} {rs : Runners} {lf : PyFilters}
    (hlf : lf ≠ PyFilters.pyNone) :
    ∀ (targets : List (String × TargetSpec)) (acc : List Entry),
    (∀ t ∈ targets, ∃ r, find_runner rs platform t.2.arch = Except.ok r) →
    generate_targets acc platform targets rs lf =
      Except.ok (acc ++ targets.flatMap
        (fun t => entries_for_target rs platform t.1 t.2 lf.directivesD)) := by
  intro targets
  induction targets with
  | nil => intro acc _; simp [generate_targets_nil]
  | cons t rest ih =>
    obtain ⟨tt, tc⟩ := t
    intro acc hall
    obtain ⟨r, hr⟩ := hall (tt, tc) (List.mem_cons_self _ _)
    rw [generate_targets_cons, get_directives_of_ne_pyNone lf hlf]
    simp only [Except.bind]
    rw [add_matrix_ok_eft hr]
    simp only [Except.bind]
    rw [ih _ (fun t ht => hall t (List.mem_cons_of_mem _ ht))]
    simp [List.flatMap_cons, List.append_assoc]

theorem generate_targets_err {platform : String} {rs : Runners} {lf : PyFilters}
    (hlf : lf ≠ PyFilters.pyNone) :
    ∀ (targets : List (String × TargetSpec)) (acc : List Entry),
    (∃ t ∈ targets, ∀ r, find_runner rs platform t.2.arch ≠ Except.ok r) →
    ∃ pl a, generate_targets acc platform targets rs lf =
      Except.error (GenError.noRunner pl a) := by
  intro targets
  induction targets with
  | nil => intro acc hx; simp at hx
  | cons t rest ih =>
    obtain ⟨tt, tc⟩ := t
    intro acc hx
    cases hf : find_runner rs platform tc.arch with
    | ok r =>
      obtain ⟨t, ht, hfail⟩ := hx
      rcases List.mem_cons.mp ht with rfl | htr
      · exact absurd hf (hfail r)
      · rw [generate_targets_cons, get_directives_of_ne_pyNone lf hlf]
        simp only [Except.bind]
        rw [add_matrix_ok_eft hf]
        simp only [Except.bind]
        exact ih _ ⟨t, htr, hfail⟩
    | error e =>
      have he : e = GenError.noRunner platform tc.arch := find_runner_error_shape hf
      subst he
      refine ⟨platform, tc.arch, ?_⟩
      rw [generate_targets_cons, get_directives_of_ne_pyNone lf hlf]
      simp only [Except.bind]
      rw [add_matrix_err hf]

theorem generate_platforms_inv {rs : Runners} {pf : Option String} {lf : PyFilters} :
    ∀ {config : Config} {acc res : List Entry},
    generate_platforms acc config rs pf lf = Except.ok res →
    res = acc ++ config.flatMap (fun pc =>
      if platform_skipped pf pc.1 then []
      else pc.2.flatMap (fun t => entries_for_target rs pc.1 t.1 t.2 lf.directivesD))
    ∧ ∀ pc ∈ config, platform_skipped pf pc.1 = false →
        ∀ t ∈ pc.2, ∃ r, find_runner rs pc.1 t.2.arch = Except.ok r := by
  intro config
  induction config with
  | nil =>
    intro acc res h
    rw [generate_platforms_nil] at h
    injection h with h
    subst h
    simp
  | cons pc rest ih =>
    obtain ⟨p, pcfg⟩ := pc
    intro acc res h
    rw [generate_platforms_cons] at h
    by_cases hskip : platform_skipped pf p
    · rw [if_pos hskip] at h
      obtain ⟨hres, hall⟩ := ih h
      constructor
      · rw [hres]
        simp [List.flatMap_cons, hskip]
      · intro pc hpc hns
        rcases List.mem_cons.mp hpc with rfl | hpr
        · rw [hskip] at hns; cases hns
        · exact hall pc hpr hns
    · rw [if_neg hskip] at h
      cases hgt : generate_targets acc p pcfg rs lf with
      | error e => rw [hgt] at h; cases h
      | ok acc2 =>
        rw [hgt] at h
        simp only [Except.bind] at h
        obtain ⟨hacc2, htargets⟩ := generate_targets_inv hgt
        obtain ⟨hres, hall⟩ := ih h
        constructor
        · rw [hres, hacc2]
          simp [List.flatMap_cons, hskip, List.append_assoc]
        · intro pc hpc hns
          rcases List.mem_cons.mp hpc with rfl | hpr
          · exact htargets
          · exact hall pc hpr hns

theorem generate_platforms_ok {rs : Runners} {pf : Option String} {lf : PyFilters}
    (hlf : lf ≠ PyFilters.pyNone) :
    ∀ (config : Config) (acc : List Entry),
    (∀ pc ∈ config, platform_skipped pf pc.1 = false →
        ∀ t ∈ pc.2, ∃ r, find_runner rs pc.1 t.2.arch = Except.ok r) →
    generate_platforms acc config rs pf lf =
      Except.ok (acc ++ config.flatMap (fun pc =>
        if platform_skipped pf pc.1 then []
        else pc.2.flatMap (fun t => entries_for_target rs pc.1 t.1 t.2 lf.directivesD))) := by
  intro config
  induction config with
  | nil => intro acc _; simp [generate_platforms_nil]
  | cons pc rest ih =>
    obtain ⟨p, pcfg⟩ := pc
    intro acc hall
    rw [generate_platforms_cons]
    by_cases hskip : platform_skipped pf p
    · rw [if_pos hskip, ih _ (fun pc hpc => hall pc (List.mem_cons_of_mem _ hpc))]
      simp [List.flatMap_cons, hskip]
    · rw [if_neg hskip]
      rw [generate_targets_ok hlf pcfg acc
        (hall (p, pcfg) (List.mem_cons_self _ _) (by simpa using hskip))]
      simp only [Except.bind]
      rw [ih _ (fun pc hpc => hall pc (List.mem_cons_of_mem _ hpc))]
      simp [List.flatMap_cons, hskip, List.append_assoc]

theorem generate_platforms_pyNone_ok {rs : Runners} {pf : Option String} :
    ∀ (config : Config) (acc : List Entry),
    (∀ pc ∈ config, platform_skipped pf pc.1 = true ∨ pc.2 = []) →
    generate_platforms acc config rs pf PyFilters.pyNone = Except.ok acc := by
  intro config
  induction config with
  | nil => intro acc _; rfl
  | cons pc rest ih =>
    obtain ⟨p, pcfg⟩ := pc
    intro acc hall
    rw [generate_platforms_cons]
    by_cases hskip : platform_skipped pf p
    · rw [if_pos hskip]
      exact ih _ (fun pc hpc => hall pc (List.mem_cons_of_mem _ hpc))
    · rw [if_neg hskip]
      rcases hall (p, pcfg) (List.mem_cons_self _ _) with hs | hnil
      · exact absurd hs hskip
      · simp only at hnil
        subst hnil
        rw [generate_targets_nil]
        simp only [Except.bind]
        exact ih _ (fun pc hpc => hall pc (List.mem_cons_of_mem _ hpc))

theorem generate_platforms_pyNone_err {rs : Runners} {pf : Option String} :
    ∀ (config : Config) (acc : List Entry),
    (∃ pc ∈ config, platform_skipped pf pc.1 = false ∧ pc.2 ≠ []) →
    generate_platforms acc config rs pf PyFilters.pyNone =
      Except.error GenError.noneGetAttribute := by
  intro config
  induction config with
  | nil => intro acc hx; simp at hx
  | cons pc rest ih =>
    obtain ⟨p, pcfg⟩ := pc
    intro acc hx
    rw [generate_platforms_cons]
    by_cases hskip : platform_skipped pf p
    · rw [if_pos hskip]
      obtain ⟨pc, hpc, hns, hne⟩ := hx
      rcases List.mem_cons.mp hpc with rfl | hpr
      · rw [hskip] at hns; cases hns
      · exact ih _ ⟨pc, hpr, hns, hne⟩
    · rw [if_neg hskip]
      cases hcfg : pcfg with
      | nil =>
        rw [generate_targets_nil]
        simp only [Except.bind]
        obtain ⟨pc, hpc, hns, hne⟩ := hx
        rcases List.mem_cons.mp hpc with rfl | hpr
        · simp only at hne; exact absurd hcfg hne
        · exact ih _ ⟨pc, hpr, hns, hne⟩
      | cons x xs =>
        obtain ⟨xt, xc⟩ := x
        rw [generate_targets_cons]
        rfl

theorem generate_platforms_err {rs : Runners} {pf : Option String} {lf : PyFilters}
    (hlf : lf ≠ PyFilters.pyNone) :
    ∀ (config : Config) (acc : List Entry),
    (∃ pc ∈ config, platform_skipped pf pc.1 = false ∧
        ∃ t ∈ pc.2, ∀ r, find_runner rs pc.1 t.2.arch ≠ Except.ok r) →
    ∃ pl a, generate_platforms acc config rs pf lf =
      Except.error (GenError.noRunner pl a) := by
  intro config
  induction config with
  | nil => intro acc hx; simp at hx
  | cons pc rest ih =>
    obtain ⟨p, pcfg⟩ := pc
    intro acc hx
    rw [generate_platforms_cons]
    by_cases hskip : platform_skipped pf p
    · rw [if_pos hskip]
      obtain ⟨pc, hpc, hns, hfail⟩ := hx
      rcases List.mem_cons.mp hpc with rfl | hpr
      · rw [hskip] at hns; cases hns
      · exact ih _ ⟨pc, hpr, hns, hfail⟩
    · rw [if_neg hskip]
      by_cases hall : ∀ t ∈ pcfg, ∃ r, find_runner rs p t.2.arch = Except.ok r
      · rw [generate_targets_ok hlf pcfg acc hall]
        simp only [Except.bind]
        obtain ⟨pc, hpc, hns, hfail⟩ := hx
        rcases List.mem_cons.mp hpc with rfl | hpr
        · obtain ⟨t, ht, hf⟩ := hfail
          obtain ⟨r, hr⟩ := hall t ht
          exact absurd hr (hf r)
        · exact ih _ ⟨pc, hpr, hns, hfail⟩
      · push_neg at hall
        obtain ⟨t, ht, hf⟩ := hall
        obtain ⟨pl, a, herr⟩ := generate_targets_err hlf pcfg acc
          ⟨t, ht, fun r hr => hf r hr⟩
        rw [herr]
        exact ⟨pl, a, rfl⟩

/-! ### Normal form of the entry filter -/

theorem should_include_entry_eq (e : Entry) (f : LabelFilters) :
    should_include_entry e f =
      (!(!f.directives.isEmpty && f.directives.contains "skip")
      && !(!f.platform.isEmpty && !f.platform.contains e.platform)
      && !(!f.python.isEmpty && !f.python.contains e.python)
      && !(!f.arch.isEmpty && !f.arch.contains e.arch)
      && !(!f.libc.isEmpty && pyTruthyOptStr e.libc
          && !f.libc.contains (e.libc.getD ""))
      && !(!f.build.isEmpty && !(f.build.all (fun b =>
          (pySplit e.build_options (fun c => c == '+')).contains b)))) := by
  unfold should_include_entry
  cases h1 : (!f.directives.isEmpty && f.directives.contains "skip") <;>
  cases h2 : (!f.platform.isEmpty && !f.platform.contains e.platform) <;>
  cases h3 : (!f.python.isEmpty && !f.python.contains e.python) <;>
  cases h4 : (!f.arch.isEmpty && !f.arch.contains e.arch) <;>
  cases h5 : (!f.libc.isEmpty && pyTruthyOptStr e.libc
      && !f.libc.contains (e.libc.getD "")) <;>
  cases h6 : (!f.build.isEmpty && !(f.build.all (fun b =>
      (pySplit e.build_options (fun c => c == '+')).contains b))) <;>
  simp [h1, h2, h3, h4, h5, h6]

theorem should_include_entry_true_iff (e : Entry) (f : LabelFilters) :
    should_include_entry e f = true ↔
      (f.directives = [] ∨ "skip" ∉ f.directives)
      ∧ (f.platform = [] ∨ e.platform ∈ f.platform)
      ∧ (f.python = [] ∨ e.python ∈ f.python)
      ∧ (f.arch = [] ∨ e.arch ∈ f.arch)
      ∧ (f.libc = [] ∨ pyTruthyOptStr e.libc = false ∨ e.libc.getD "" ∈ f.libc)
      ∧ (f.build = [] ∨ ∀ b ∈ f.build, b ∈ pySplit e.build_options (fun c => c == '+')) := by
  rw [should_include_entry_eq]
  simp only [Bool.and_eq_true, Bool.not_eq_true', Bool.and_eq_false_iff,
    Bool.not_eq_false', List.isEmpty_iff, List.all_eq_true]
  constructor
  · intro ⟨⟨⟨⟨⟨hd, hp⟩, hpy⟩, ha⟩, hl⟩, hb⟩
    refine ⟨?_, ?_, ?_, ?_, ?_, ?_⟩
    · rcases hd with hd | hd
      · exact Or.inl hd
      · exact Or.inr (by simpa [List.elem_iff] using hd)
    · rcases hp with hp | hp
      · exact Or.inl hp
      · exact Or.inr (by simpa [List.elem_iff] using hp)
    · rcases hpy with hpy | hpy
      · exact Or.inl hpy
      · exact Or.inr (by simpa [List.elem_iff] using hpy)
    · rcases ha with ha | ha
      · exact Or.inl ha
      · exact Or.inr (by simpa [List.elem_iff] using ha)
    · rcases hl with (hl | hl) | hl
      · exact Or.inl hl
      · exact Or.inr (Or.inl hl)
      · exact Or.inr (Or.inr (by simpa [List.elem_iff] using hl))
    · rcases hb with hb | hb
      · exact Or.inl hb
      · refine Or.inr ?_
        intro b hbm
        have := hb b hbm
        simpa [List.elem_iff] using this
  · intro ⟨hd, hp, hpy, ha, hl, hb⟩
    refine ⟨⟨⟨⟨⟨?_, ?_⟩, ?_⟩, ?_⟩, ?_⟩, ?_⟩
    · rcases hd with hd | hd
      · exact Or.inl hd
      · exact Or.inr (by simpa [List.elem_iff] using hd)
    · rcases hp with hp | hp
      · exact Or.inl hp
      · exact Or.inr (by simpa [List.elem_iff] using hp)
    · rcases hpy with hpy | hpy
      · exact Or.inl hpy
      · exact Or.inr (by simpa [List.elem_iff] using hpy)
    · rcases ha with ha | ha
      · exact Or.inl ha
      · exact Or.inr (by simpa [List.elem_iff] using ha)
    · rcases hl with hl | hl | hl
      · exact Or.inl (Or.inl hl)
      · exact Or.inl (Or.inr hl)
      · exact Or.inr (by simpa [List.elem_iff] using hl)
    · rcases hb with hb | hb
      · exact Or.inl hb
      · refine Or.inr ?_
        intro b hbm
        have := hb b hbm
        simpa [List.elem_iff] using this

theorem should_include_entry_skip {f : LabelFilters} (h : "skip" ∈ f.directives)
    (e : Entry) : should_include_entry e f = false := by
  unfold should_include_entry
  have h1 : f.directives.contains "skip" = true := by simpa [List.elem_iff] using h
  have h2 : f.directives.isEmpty = false := by
    cases hd : f.directives with
    | nil => rw [hd] at h; cases h
    | cons a t => rfl
  simp [h1, h2]
  intro h3
  exact absurd h h3

theorem filter_skip_nil {f : LabelFilters} (h : "skip" ∈ f.directives) (l : List Entry) :
    l.filter (fun e => should_include_entry e f) = [] :=
  List.filter_eq_nil_iff.mpr (fun e _ => by simp [should_include_entry_skip h e])

/-- C4: the unfiltered entry sequence lists platforms in configuration
order, target triples in their per-platform order, and for each pair the
unconditional python-by-build-option entries (python outer, option inner,
as regular_entries does) followed by the conditional blocks in declared
order (as conditional_entries does); applying the label filters keeps a
subsequence, preserving the relative order. -/
theorem generate_matrix_order (config : Config) (runners : Runners) (pf : Option String)
    (lf : PyFilters) (raw : List Entry)
    (h : generate_platforms [] config runners pf lf = Except.ok raw) :
    raw = config.flatMap (fun pc =>
      if platform_skipped pf pc.1 then []
      else pc.2.flatMap (fun t => entries_for_target runners pc.1 t.1 t.2 lf.directivesD))
    ∧ ∀ f, lf = PyFilters.dict f →
        generate_matrix_entries config runners pf lf =
          Except.ok (raw.filter (fun e => should_include_entry e f))
        ∧ (raw.filter (fun e => should_include_entry e f)).Sublist raw := by
  constructor
  · simpa using (generate_platforms_inv h).1
  · intro f hf
    subst hf
    constructor
    · rw [generate_matrix_entries_eq, h]
      rfl
    · exact List.filter_sublist raw

/-- Witness for C4: the sample expansion yields exactly the per-target
blocks in configuration order. -/
theorem generate_matrix_order_witness :
    sampleRaw = sampleConfig.flatMap (fun pc =>
      if platform_skipped Option.none pc.1 then []
      else pc.2.flatMap (fun t =>
        entries_for_target sampleRunners pc.1 t.1 t.2
          (PyFilters.dict emptyLabelFilters).directivesD)) :=
  (generate_matrix_order sampleConfig sampleRunners Option.none
    (PyFilters.dict emptyLabelFilters) sampleRaw (by rfl)).1

/-- C5: a filter set whose directives contain skip (which the parser adds
for the bare documentation token) rejects every entry, empties every
filtered list, and forces every successful run of the generator to return
the empty sequence, regardless of the other filter categories. -/
theorem skip_directive_filters_everything (f : LabelFilters)
    (hskip : "skip" ∈ f.directives) :
    (∀ entry, should_include_entry entry f = false)
    ∧ (∀ l : List Entry, l.filter (fun e => should_include_entry e f) = [])
    ∧ (∀ (config : Config) (runners : Runners) (pf : Option String)
        (entries : List Entry),
      generate_matrix_entries config runners pf (PyFilters.dict f) = Except.ok entries →
      entries = [])
    ∧ "skip" ∈ (parse_labels (some "documentation")).directivesD := by
  refine ⟨fun e => should_include_entry_skip hskip e, fun l => filter_skip_nil hskip l,
    ?_, by decide⟩
  intro config runners pf entries h
  rw [generate_matrix_entries_eq] at h
  cases hgp : generate_platforms [] config runners pf (PyFilters.dict f) with
  | error e => rw [hgp] at h; cases h
  | ok raw =>
    rw [hgp] at h
    simp only [Except.bind] at h
    injection h with h
    rw [← h, filter_skip_nil hskip]

/-- Witness for C5: the skip-only filter set rejects the sample entry. -/
theorem skip_directive_filters_everything_witness :
    "skip" ∈ skipFilters.directives ∧ should_include_entry sampleEntry skipFilters = false :=
  ⟨by decide, (skip_directive_filters_everything skipFilters (by decide)).1 sampleEntry⟩

/-- C6: with a non-empty build filter category an entry can only be kept
when every requested build token is among the plus-separated tokens of its
build_options value, and with the other categories empty this subset test
exactly characterises inclusion, so entries carrying extra tokens beyond
the requested ones are kept. -/
theorem build_filter_subset (f : LabelFilters) (entry : Entry) (hb : f.build ≠ []) :
    (should_include_entry entry f = true →
      ∀ b ∈ f.build, b ∈ pySplit entry.build_options (fun c => c == '+'))
    ∧ (f.platform = [] → f.python = [] → f.arch = [] → f.libc = [] → f.directives = [] →
      (should_include_entry entry f = true ↔
        ∀ b ∈ f.build, b ∈ pySplit entry.build_options (fun c => c == '+'))) := by
  constructor
  · intro h
    rcases ((should_include_entry_true_iff entry f).mp h).2.2.2.2.2 with hnil | hall
    · exact absurd hnil hb
    · exact hall
  · intro hp hpy ha hl hd
    constructor
    · intro h
      rcases ((should_include_entry_true_iff entry f).mp h).2.2.2.2.2 with hnil | hall
      · exact absurd hnil hb
      · exact hall
    · intro hall
      exact (should_include_entry_true_iff entry f).mpr
        ⟨Or.inl hd, Or.inl hp, Or.inl hpy, Or.inl ha, Or.inl hl, Or.inr hall⟩

/-- Witness for C6: the debug build filter keeps the sample entry whose
build options are debug plus pgo, and the kept entry indeed carries every
requested token. -/
theorem build_filter_subset_witness :
    buildFilters.build ≠ [] ∧
    (should_include_entry sampleEntry buildFilters = true ↔
      ∀ b ∈ buildFilters.build, b ∈ pySplit sampleEntry.build_options (fun c => c == '+')) :=
  ⟨by decide, (build_filter_subset buildFilters sampleEntry (by decide)).2
    rfl rfl rfl rfl rfl⟩

/-- Counterexample for C7: against a non-empty libc filter, an entry whose
libc field is present but holds the empty string is kept by the code even
though its libc value is not in the filter set, because the truthiness
test on the field value treats the empty string like a missing field. -/
theorem libc_claim_counterexample :
    libcFilters.libc ≠ [] ∧ emptyLibcEntry.libc.isSome = true ∧
    ¬((should_include_entry emptyLibcEntry libcFilters = true) ↔
      emptyLibcEntry.libc.getD "" ∈ libcFilters.libc) := by decide

/-- C7 (amended): with a non-empty libc category and the other categories
empty, an entry whose libc field is absent or holds the empty string is
always kept, while an entry with a non-empty libc value is kept exactly
when that value is in the filter set; and the platform, python and arch
categories, when non-empty, exclude every entry whose field value is not
in the respective set. -/
theorem libc_filter_amended (f : LabelFilters) (entry : Entry) :
    ((f.libc ≠ [] → f.platform = [] → f.python = [] → f.arch = [] → f.directives = [] →
      f.build = [] →
      ((entry.libc = Option.none ∨ entry.libc = some "" →
        should_include_entry entry f = true)
      ∧ ∀ s, s ≠ "" → entry.libc = some s →
          (should_include_entry entry f = true ↔ s ∈ f.libc))))
    ∧ (should_include_entry entry f = true →
        (f.platform ≠ [] → entry.platform ∈ f.platform)
        ∧ (f.python ≠ [] → entry.python ∈ f.python)
        ∧ (f.arch ≠ [] → entry.arch ∈ f.arch)) := by
  constructor
  · intro hlc hp hpy ha hd hb
    constructor
    · intro hlibc
      apply (should_include_entry_true_iff entry f).mpr
      refine ⟨Or.inl hd, Or.inl hp, Or.inl hpy, Or.inl ha, ?_, Or.inl hb⟩
      rcases hlibc with hn | he
      · exact Or.inr (Or.inl (by rw [hn]; rfl))
      · exact Or.inr (Or.inl (by rw [he]; rfl))
    · intro s hs hes
      constructor
      · intro h
        rcases ((should_include_entry_true_iff entry f).mp h).2.2.2.2.1 with
          hnil | hfalse | hmem
        · exact absurd hnil hlc
        · exfalso
          rw [hes] at hfalse
          simp [pyTruthyOptStr] at hfalse
          exact hs hfalse
        · rw [hes] at hmem
          simpa using hmem
      · intro hmem
        apply (should_include_entry_true_iff entry f).mpr
        exact ⟨Or.inl hd, Or.inl hp, Or.inl hpy, Or.inl ha,
          Or.inr (Or.inr (by rw [hes]; simpa using hmem)), Or.inl hb⟩
  · intro h
    have hiff := (should_include_entry_true_iff entry f).mp h
    refine ⟨fun hne => ?_, fun hne => ?_, fun hne => ?_⟩
    · rcases hiff.2.1 with hnil | hmem
      · exact absurd hnil hne
      · exact hmem
    · rcases hiff.2.2.1 with hnil | hmem
      · exact absurd hnil hne
      · exact hmem
    · rcases hiff.2.2.2.1 with hnil | hmem
      · exact absurd hnil hne
      · exact hmem

/-- Witness for C7 (amended): the glibc filter keeps the sample entry,
whose libc value glibc is in the filter set. -/
theorem libc_filter_amended_witness :
    should_include_entry sampleEntry libcFilters = true :=
  (((libc_filter_amended libcFilters sampleEntry).1 (by decide) rfl rfl rfl rfl rfl).2
    "glibc" (by decide) rfl).mpr (by decide)

theorem mem_regular_entries {e base : Entry} {pvs bos : List String}
    (h : e ∈ regular_entries base pvs bos) :
    e.run = base.run ∧ e.runner = base.runner := by
  unfold regular_entries at h
  rw [List.mem_flatMap] at h
  obtain ⟨v, _, h⟩ := h
  rw [List.mem_map] at h
  obtain ⟨o, _, rfl⟩ := h
  exact ⟨rfl, rfl⟩

theorem mem_conditional_entries {e base : Entry} {pvs : List String}
    {cs : List Conditional} (h : e ∈ conditional_entries base pvs cs) :
    e.run = base.run ∧ e.runner = base.runner := by
  unfold conditional_entries at h
  rw [List.mem_flatMap] at h
  obtain ⟨c, _, h⟩ := h
  unfold conditional_entries_for at h
  rw [List.mem_flatMap] at h
  obtain ⟨v, _, h⟩ := h
  by_cases hm : meets_conditional_version v c.minimum_python_version
  · rw [if_pos hm] at h
    rw [List.mem_map] at h
    obtain ⟨o, _, rfl⟩ := h
    exact ⟨rfl, rfl⟩
  · rw [if_neg hm] at h
    cases h

theorem make_base_entry_runner {tt p r : String} {config : TargetSpec} {rs : Runners}
    {ds : List String} : (make_base_entry tt p r config rs ds).runner = r := rfl

theorem make_base_entry_run_explicit {config : TargetSpec} {b : Bool}
    (h : config.run = some b) {tt p r : String} {rs : Runners} {ds : List String} :
    (make_base_entry tt p r config rs ds).run = (if b then "true" else "false") := by
  simp [make_base_entry, h]

theorem make_base_entry_run_default {config : TargetSpec}
    (h : config.run = Option.none) {tt p r : String} {rs : Runners} {ds : List String} :
    ((make_base_entry tt p r config rs ds).run = "true" ↔
      (dictGet rs r).map RunnerSpec.arch = some config.arch) := by
  unfold make_base_entry
  rw [h]
  by_cases hc : ((dictGet rs r).map RunnerSpec.arch == some config.arch) = true
  · simp only [hc, if_true]
    simp only [beq_iff_eq] at hc
    simp [hc]
  · simp only [hc, if_false]
    simp only [beq_iff_eq] at hc
    constructor
    · intro h2
      exact absurd h2 (by decide)
    · intro h2
      exact absurd h2 hc

theorem make_base_entry_run_tf {tt p r : String} {config : TargetSpec} {rs : Runners}
    {ds : List String} :
    (make_base_entry tt p r config rs ds).run = "true" ∨
    (make_base_entry tt p r config rs ds).run = "false" := by
  cases hr : config.run with
  | some b => cases b <;> simp [make_base_entry, hr]
  | none =>
    by_cases hc : ((dictGet rs r).map RunnerSpec.arch == some config.arch) = true
    · simp [make_base_entry, hr, hc]
    · simp [make_base_entry, hr, hc]

theorem run_tf_of_mem_eft {rs : Runners} {p tt : String} {tc : TargetSpec}
    {ds : List String} {e : Entry} (h : e ∈ entries_for_target rs p tt tc ds) :
    e.run = "true" ∨ e.run = "false" := by
  cases hf : find_runner rs p tc.arch with
  | error err =>
    unfold entries_for_target at h
    rw [hf] at h
    cases h
  | ok r =>
    rw [entries_for_target_of_ok hf] at h
    rcases List.mem_append.mp h with hm | hm
    · rw [(mem_regular_entries hm).1]
      exact make_base_entry_run_tf
    · rw [(mem_conditional_entries hm).1]
      exact make_base_entry_run_tf

theorem run_tf_of_mem_raw {config : Config} {rs : Runners} {pf : Option String}
    {lf : PyFilters} {raw : List Entry}
    (h : generate_platforms [] config rs pf lf = Except.ok raw) :
    ∀ e ∈ raw, e.run = "true" ∨ e.run = "false" := by
  intro e he
  rw [(generate_platforms_inv h).1] at he
  rw [List.nil_append, List.mem_flatMap] at he
  obtain ⟨pc, _, he⟩ := he
  by_cases hs : platform_skipped pf pc.1
  · rw [if_pos hs] at he
    cases he
  · rw [if_neg hs] at he
    rw [List.mem_flatMap] at he
    obtain ⟨t, _, he⟩ := he
    exact run_tf_of_mem_eft he

/-- C8: every entry a successful expansion produces carries the literal
string true or false in its run field; per target, an explicit run value
in the spec yields that boolean stringified and lowercased, and without
one the field is true exactly when the arch of the resolved runner (looked
up in the registry under the entry's runner name) equals the target's
arch. -/
theorem run_field_invariant :
    (∀ (config : Config) (runners : Runners) (pf : Option String) (lf : PyFilters)
        (entries : List Entry),
      generate_matrix_entries config runners pf lf = Except.ok entries →
      ∀ e ∈ entries, e.run = "true" ∨ e.run = "false")
    ∧ (∀ (acc : List Entry) (tt : String) (tc : TargetSpec) (p : String) (rs : Runners)
        (ds : List String) (res : List Entry),
      add_matrix_entries_for_config acc tt tc p rs ds = Except.ok res →
      ∀ e ∈ res.drop acc.length,
        (∀ b, tc.run = some b → e.run = (if b then "true" else "false"))
        ∧ (tc.run = Option.none →
          (e.run = "true" ↔ (dictGet rs e.runner).map RunnerSpec.arch = some tc.arch))) := by
  constructor
  · intro config runners pf lf entries h e he
    rw [generate_matrix_entries_eq] at h
    cases hgp : generate_platforms [] config runners pf lf with
    | error err => rw [hgp] at h; cases h
    | ok raw =>
      rw [hgp] at h
      simp only [Except.bind] at h
      have hsub : e ∈ raw := by
        cases lf with
        | dict f =>
          injection h with h
          rw [← h] at he
          exact List.mem_of_mem_filter he
        | pyNone =>
          injection h with h
          rw [← h] at he
          exact he
        | emptyDict =>
          injection h with h
          rw [← h] at he
          exact he
      exact run_tf_of_mem_raw hgp e hsub
  · intro acc tt tc p rs ds res h e he
    cases hf : find_runner rs p tc.arch with
    | error err => rw [add_matrix_err hf] at h; cases h
    | ok r =>
      rw [add_matrix_ok_eft hf] at h
      injection h with h
      subst h
      rw [List.drop_left] at he
      rw [entries_for_target_of_ok hf] at he
      have hbase : e.run = (make_base_entry tt p r tc rs ds).run ∧
          e.runner = (make_base_entry tt p r tc rs ds).runner := by
        rcases List.mem_append.mp he with hm | hm
        · exact mem_regular_entries hm
        · exact mem_conditional_entries hm
      constructor
      · intro b hb
        rw [hbase.1, make_base_entry_run_explicit hb]
      · intro hnone
        rw [hbase.1, hbase.2, make_base_entry_runner]
        exact make_base_entry_run_default hnone

/-- Witness for C8: the first entry of the sample expansion carries a
literal boolean string in its run field. -/
theorem run_field_invariant_witness :
    (sampleGenerated.headD sampleEntry).run = "true" ∨
    (sampleGenerated.headD sampleEntry).run = "false" :=
  run_field_invariant.1 sampleConfig sampleRunners Option.none PyFilters.emptyDict
    sampleGenerated (by rfl) (sampleGenerated.headD sampleEntry) (by decide)

/-- C9: calling the generator with its Python None default for
label_filters fails with the AttributeError of calling get on None as soon
as at least one (platform, target triple) pair survives the platform
filter, because the directives lookup runs unconditionally inside the
target loop; when nothing is expanded the None default is harmless and the
result is the empty list. -/
theorem none_label_filters_fatal (config : Config) (runners : Runners)
    (pf : Option String) :
    ((∃ pc ∈ config, platform_skipped pf pc.1 = false ∧ pc.2 ≠ []) →
      generate_matrix_entries config runners pf PyFilters.pyNone =
        Except.error GenError.noneGetAttribute)
    ∧ ((∀ pc ∈ config, platform_skipped pf pc.1 = true ∨ pc.2 = []) →
      generate_matrix_entries config runners pf PyFilters.pyNone = Except.ok []) := by
  constructor
  · intro hx
    rw [generate_matrix_entries_eq, generate_platforms_pyNone_err config [] hx]
    rfl
  · intro hall
    rw [generate_matrix_entries_eq, generate_platforms_pyNone_ok config [] hall]
    rfl

/-- Witness for C9: on the sample configuration, whose single platform
survives the absent platform filter with one target, the None default is
fatal. -/
theorem none_label_filters_fatal_witness :
    generate_matrix_entries sampleConfig sampleRunners Option.none PyFilters.pyNone =
      Except.error GenError.noneGetAttribute :=
  (none_label_filters_fatal sampleConfig sampleRunners Option.none).1
    ⟨("linux", [("x86_64-unknown-linux-gnu", sampleSpec)]), by decide⟩

/-- C10: expansion resolves a runner for every surviving (platform, target
triple) pair before label filtering runs, so even under the skip directive
the run aborts with the no-runner error whenever some surviving platform
with at least one target has no platform-matching runner, and the empty
output under skip is only guaranteed when every surviving pair resolves a
runner. -/
theorem expansion_before_filtering (config : Config) (runners : Runners)
    (pf : Option String) (f : LabelFilters) (hskip : "skip" ∈ f.directives) :
    ((∃ pc ∈ config, platform_skipped pf pc.1 = false ∧ pc.2 ≠ [] ∧
        ∀ q ∈ runners, ¬(q.2.platform = pc.1)) →
      ∃ pl a, generate_matrix_entries config runners pf (PyFilters.dict f) =
        Except.error (GenError.noRunner pl a))
    ∧ ((∀ pc ∈ config, platform_skipped pf pc.1 = false →
        ∀ t ∈ pc.2, ∃ r, find_runner runners pc.1 t.2.arch = Except.ok r) →
      generate_matrix_entries config runners pf (PyFilters.dict f) = Except.ok []) := by
  constructor
  · intro hx
    obtain ⟨pc, hpc, hns, hne, hnoq⟩ := hx
    obtain ⟨t, ht⟩ := List.exists_mem_of_ne_nil pc.2 hne
    have herr : find_runner runners pc.1 t.2.arch =
        Except.error (GenError.noRunner pc.1 t.2.arch) :=
      (find_runner_error_iff runners pc.1 t.2.arch).mpr hnoq
    obtain ⟨pl, a, hgp⟩ := @generate_platforms_err runners pf (PyFilters.dict f)
      (by intro hx2; cases hx2) config []
      ⟨pc, hpc, hns, t, ht, fun r hr => by rw [herr] at hr; cases hr⟩
    refine ⟨pl, a, ?_⟩
    rw [generate_matrix_entries_eq, hgp]
    rfl
  · intro hall
    rw [generate_matrix_entries_eq,
      @generate_platforms_ok runners pf (PyFilters.dict f) (by intro hx2; cases hx2)
        config [] hall]
    simp only [Except.bind]
    rw [filter_skip_nil hskip]

/-- Witness for C10: with the skip directive active, the windows-only
configuration still aborts with a no-runner error because the sample
registry has no windows runner, while the linux sample configuration,
whose runner resolves, yields the empty output. -/
theorem expansion_before_filtering_witness :
    "skip" ∈ skipFilters.directives ∧
    ∃ pl a, generate_matrix_entries windowsConfig sampleRunners Option.none
      (PyFilters.dict skipFilters) = Except.error (GenError.noRunner pl a) :=
  ⟨by decide,
    (expansion_before_filtering windowsConfig sampleRunners Option.none skipFilters
      (by decide)).1 ⟨("windows", [("x86_64-pc-windows-msvc", sampleSpec)]), by decide⟩⟩
